import Mathlib

/-!
Verification of the collaborative-editing core of the rustpad server.

The development shallowly embeds the per-document session logic of
`rustpad-server/src/rustpad.rs` and the persister loop of
`rustpad-server/src/lib.rs`.  The operational-transformation primitive
(`OperationSeq` from the external `operational-transform` crate) and the
cursor-mapping helper `transform_index` (the repository's `ot` module, whose
source file is not among the provided sources) are modelled from the
specification's description of their interface (spec sections 3 and 4.1).

Strings are modelled by Lean `String`, lengths counted in characters, which
matches the crate's `chars().count()` convention.  Machine integers (`u64`,
`u32`, `usize`) are modelled by `Nat`; none of the verified paths can
overflow them on the inputs the server accepts.
-/

namespace RustpadSpec

/-- Modelled from the spec: an Operation is "an ordered sequence of three
primitive kinds — retain N, insert S, delete N" (spec section 3).  The
`operational-transform` crate providing this type is an external collaborator
whose source is not part of the repository. -/
inductive PrimOp where
  | retain (n : Nat)
  | delete (n : Nat)
  | insert (s : String)
deriving DecidableEq

/-- Contribution of one primitive to `base_len` (retains and deletes). -/
def PrimOp.baseLen : PrimOp → Nat
  | .retain n => n
  | .delete n => n
  | .insert _ => 0

/-- Contribution of one primitive to `target_len` (retains and inserts). -/
def PrimOp.targetLen : PrimOp → Nat
  | .retain n => n
  | .delete _ => 0
  | .insert s => s.length

/-- Sum of `base_len` contributions of a list of primitives. -/
def opsBaseLen : List PrimOp → Nat
  | [] => 0
  | op :: rest => op.baseLen + opsBaseLen rest

/-- Sum of `target_len` contributions of a list of primitives. -/
def opsTargetLen : List PrimOp → Nat
  | [] => 0
  | op :: rest => op.targetLen + opsTargetLen rest

/-- Modelled from the spec: the crate's edit-operation type, a compact list of
primitives (spec section 4.1). -/
structure OperationSeq where
  ops : List PrimOp
deriving DecidableEq

/-- The operation's `base_len`: length of the strings it applies to. -/
def OperationSeq.baseLen (o : OperationSeq) : Nat := opsBaseLen o.ops

/-- The operation's `target_len`: length of the strings it produces. -/
def OperationSeq.targetLen (o : OperationSeq) : Nat := opsTargetLen o.ops

/-- The empty operation (the crate's `OperationSeq::default()`). -/
def OperationSeq.empty : OperationSeq := ⟨[]⟩

/-- Builder appending a `retain` primitive. -/
def OperationSeq.retain (o : OperationSeq) (n : Nat) : OperationSeq :=
  ⟨o.ops ++ [.retain n]⟩

/-- Builder appending a `delete` primitive. -/
def OperationSeq.delete (o : OperationSeq) (n : Nat) : OperationSeq :=
  ⟨o.ops ++ [.delete n]⟩

/-- Builder appending an `insert` primitive. -/
def OperationSeq.insert (o : OperationSeq) (s : String) : OperationSeq :=
  ⟨o.ops ++ [.insert s]⟩

/-- Scan of `apply` over the character list of the input string: a retain
copies characters, a delete skips them, an insert emits its own text. -/
def applyOps : List PrimOp → List Char → Option (List Char)
  | [], [] => some []
  | [], _ :: _ => none
  | .retain n :: rest, cs =>
      if n ≤ cs.length then (applyOps rest (cs.drop n)).map (fun t => cs.take n ++ t)
      else none
  | .delete n :: rest, cs =>
      if n ≤ cs.length then applyOps rest (cs.drop n)
      else none
  | .insert s :: rest, cs => (applyOps rest cs).map (fun t => s.data ++ t)

/-- Modelled from the spec: "apply(op, s) → s' — fails if len(s) != op.base_len"
(spec section 4.1). -/
def OperationSeq.apply (o : OperationSeq) (s : String) : Option String :=
  if s.length = o.baseLen then (applyOps o.ops s.data).map List.asString
  else none

/-- Modelled from the spec: the dual scan computing `transform(a, b) = (a_p, b_p)`
with the left operand's insert preceding on ties (spec section 4.1).  The scan
consumes one primitive per step, so fuel `|a| + |b| + 1` never runs out; fuel
keeps the recursion structural. -/
def transformFuel :
    Nat → List PrimOp → List PrimOp → OperationSeq → OperationSeq →
      Option (OperationSeq × OperationSeq)
  | 0, _, _, _, _ => none
  | _ + 1, [], [], aP, bP => some (aP, bP)
  | fuel + 1, PrimOp.insert s :: as, bs, aP, bP =>
      transformFuel fuel as bs (aP.insert s) (bP.retain s.length)
  | fuel + 1, as, PrimOp.insert s :: bs, aP, bP =>
      transformFuel fuel as bs (aP.retain s.length) (bP.insert s)
  | _ + 1, [], _, _, _ => none
  | _ + 1, _, [], _, _ => none
  | fuel + 1, PrimOp.retain i :: as, PrimOp.retain j :: bs, aP, bP =>
      if i < j then
        transformFuel fuel as (PrimOp.retain (j - i) :: bs) (aP.retain i) (bP.retain i)
      else if i = j then
        transformFuel fuel as bs (aP.retain i) (bP.retain i)
      else
        transformFuel fuel (PrimOp.retain (i - j) :: as) bs (aP.retain j) (bP.retain j)
  | fuel + 1, PrimOp.delete i :: as, PrimOp.delete j :: bs, aP, bP =>
      if i < j then
        transformFuel fuel as (PrimOp.delete (j - i) :: bs) aP bP
      else if i = j then
        transformFuel fuel as bs aP bP
      else
        transformFuel fuel (PrimOp.delete (i - j) :: as) bs aP bP
  | fuel + 1, PrimOp.delete i :: as, PrimOp.retain j :: bs, aP, bP =>
      if i < j then
        transformFuel fuel as (PrimOp.retain (j - i) :: bs) (aP.delete i) bP
      else if i = j then
        transformFuel fuel as bs (aP.delete i) bP
      else
        transformFuel fuel (PrimOp.delete (i - j) :: as) bs (aP.delete j) bP
  | fuel + 1, PrimOp.retain i :: as, PrimOp.delete j :: bs, aP, bP =>
      if i < j then
        transformFuel fuel as (PrimOp.delete (j - i) :: bs) aP (bP.delete i)
      else if i = j then
        transformFuel fuel as bs aP (bP.delete j)
      else
        transformFuel fuel (PrimOp.retain (i - j) :: as) bs aP (bP.delete j)

/-- Modelled from the spec: `transform(a, b)`, which requires both operations
to share the same `base_len` (spec section 4.1). -/
def OperationSeq.transform (a b : OperationSeq) :
    Option (OperationSeq × OperationSeq) :=
  if a.baseLen = b.baseLen then
    transformFuel (a.ops.length + b.ops.length + 1) a.ops b.ops .empty .empty
  else none

/-- Scan of `transform_index` over the primitives: "a retain k advances both
sides by k; an insert of length n shifts the result rightward by n for any i at
or after the insert position; a delete k clamps i into the deleted range's
start" (spec section 4.1). -/
def transformIndexOps : List PrimOp → Nat → Nat
  | [], i => i
  | .retain n :: rest, i => if i < n then i else n + transformIndexOps rest (i - n)
  | .insert s :: rest, i => s.length + transformIndexOps rest i
  | .delete n :: rest, i => if i < n then 0 else transformIndexOps rest (i - n)

/-- Modelled from the spec: `transform_index(op, i)` maps a pre-op offset to a
post-op offset and never fails (spec section 4.1).  The repository's `ot`
module defining it is not among the provided sources. -/
def transform_index (operation : OperationSeq) (position : Nat) : Nat :=
  transformIndexOps operation.ops position

/-- Translation of `PersistedDocument` (database.rs). -/
structure PersistedDocument where
  text : String
  language : Option String
deriving DecidableEq

/-- Translation of `UserOperation` (rustpad.rs). -/
structure UserOperation where
  id : Nat
  operation : OperationSeq
  email : Option String
deriving DecidableEq

/-- Translation of `UserInfo` (rustpad.rs). -/
structure UserInfo where
  name : String
  hue : Nat
deriving DecidableEq

/-- Translation of `CursorData` (rustpad.rs). -/
structure CursorData where
  cursors : List Nat
  selections : List (Nat × Nat)
deriving DecidableEq

/-- Translation of the session state: the lock-protected `State` of rustpad.rs
together with the `killed` atomic flag of the surrounding `Rustpad` object.
Hash maps become association lists with distinct keys. -/
structure State where
  operations : List UserOperation
  text : String
  language : Option String
  users : List (Nat × UserInfo)
  cursors : List (Nat × CursorData)
  userColors : List (String × Nat)
  killed : Bool
deriving DecidableEq

/-- The state of a freshly constructed session (`Rustpad::default` /
`Rustpad::new`): everything empty, not killed. -/
def emptyState : State :=
  { operations := []
    text := ""
    language := none
    users := []
    cursors := []
    userColors := []
    killed := false }

/-- The value `u64::MAX`, reserved for the synthetic seed operation. -/
def u64Max : Nat := 2 ^ 64 - 1

/-- The 256 KiB cap on the target length of an accepted operation. -/
def maxTargetLen : Nat := 256 * 1024

/-- Translation of `Rustpad::revision`: the length of the history. -/
def State.revision (st : State) : Nat := st.operations.length

/-- Translation of `Rustpad::kill`: set the killed flag. -/
def State.kill (st : State) : State := { st with killed := true }

/-- Translation of `Rustpad::from_document`: seed text, language and a single
synthetic insert operation with id `u64::MAX` and no email. -/
def fromDocument (doc : PersistedDocument) : State :=
  let operation := OperationSeq.empty.insert doc.text
  { emptyState with
    text := doc.text
    language := doc.language
    operations := [{ id := u64Max, operation := operation, email := none }] }

/-- The error cases of `Rustpad::apply_edit` (`bail!` sites and OT failures),
named as in the spec's error taxonomy (spec section 7). -/
inductive EditError where
  | invalidRevision
  | documentTooLarge
  | otFailure
deriving DecidableEq

/-- The rebase loop of `apply_edit`: transform the incoming operation against
each concurrent history entry, keeping the first component. -/
def rebase (o : OperationSeq) (history : List UserOperation) : Option OperationSeq :=
  history.foldlM (fun acc h => (acc.transform h.operation).map Prod.fst) o

/-- The cursor update of `apply_edit`: every cursor and both endpoints of every
selection are mapped through `transform_index` of the committed operation. -/
def transformCursorData (op : OperationSeq) (d : CursorData) : CursorData :=
  { cursors := d.cursors.map (transform_index op)
    selections := d.selections.map (fun q => (transform_index op q.1, transform_index op q.2)) }

/-- Translation of `Rustpad::apply_edit` (rustpad.rs lines 378-415): check the
revision, rebase against the concurrent history tail, enforce the size cap,
apply to the text, transform all stored cursors, append the user operation and
install the new text.  All failures happen before any mutation. -/
def State.applyEdit (st : State) (id : Nat) (revision : Nat)
    (operation : OperationSeq) (email : Option String) : Except EditError State :=
  let len := st.operations.length
  if revision > len then .error .invalidRevision
  else
    match rebase operation (st.operations.drop revision) with
    | none => .error .otFailure
    | some op =>
      if op.targetLen > maxTargetLen then .error .documentTooLarge
      else
        match op.apply st.text with
        | none => .error .otFailure
        | some newText =>
          .ok { st with
                cursors := st.cursors.map (fun p => (p.1, transformCursorData op p.2))
                operations := st.operations ++ [{ id := id, operation := op, email := email }]
                text := newText }

/-- Translation of `ClientMsg` (rustpad.rs). -/
inductive ClientMsg where
  | edit (revision : Nat) (operation : OperationSeq)
  | setLanguage (l : String)
  | clientInfo (info : UserInfo)
  | cursorData (data : CursorData)
  | setColor (hue : Nat)
deriving DecidableEq

/-- Translation of `ServerMsg` (rustpad.rs). -/
inductive ServerMsg where
  | identity (id : Nat)
  | authenticatedEmail (email : Option String)
  | history (start : Nat) (operations : List UserOperation)
  | language (l : String)
  | userInfo (id : Nat) (info : Option UserInfo)
  | userCursor (id : Nat) (data : CursorData)
  | userColor (email : String) (hue : Nat)
deriving DecidableEq

/-- Insertion into an association list, modelling `HashMap::insert`. -/
def insertAssoc {α β : Type} [DecidableEq α] (k : α) (v : β)
    (m : List (α × β)) : List (α × β) :=
  (k, v) :: m.filter (fun p => p.1 ≠ k)

/-- Translation of `Rustpad::handle_message` (the state-mutating effect of each
client message): an `Edit` goes through `apply_edit` and its error closes the
connection; the other messages always succeed. -/
def State.handleMessage (st : State) (id : Nat) (msg : ClientMsg)
    (cfEmail : Option String) : Except EditError State :=
  match msg with
  | .edit revision operation => st.applyEdit id revision operation cfEmail
  | .setLanguage l => .ok { st with language := some l }
  | .clientInfo info => .ok { st with users := insertAssoc id info st.users }
  | .cursorData data => .ok { st with cursors := insertAssoc id data st.cursors }
  | .setColor hue =>
      match cfEmail with
      | some email => .ok { st with userColors := insertAssoc email hue st.userColors }
      | none => .ok st

/-- Translation of the epilogue of `Rustpad::on_connection`: when a connection
ends, its user and cursor entries are removed and `UserInfo{id, None}` is
broadcast. -/
def State.disconnect (st : State) (id : Nat) : State × List ServerMsg :=
  ({ st with
      users := st.users.filter (fun p => p.1 ≠ id)
      cursors := st.cursors.filter (fun p => p.1 ≠ id) },
   [ServerMsg.userInfo id none])

/-- Translation of `Rustpad::send_initial`: the ordered list of messages sent
to a fresh connection, paired with the revision the handler starts from. -/
def State.sendInitial (st : State) (id : Nat) (cfEmail : Option String) :
    List ServerMsg × Nat :=
  let messages :=
    (if st.operations.isEmpty then []
     else [ServerMsg.history 0 st.operations])
    ++ (match st.language with
        | some l => [ServerMsg.language l]
        | none => [])
    ++ st.users.map (fun p => ServerMsg.userInfo p.1 (some p.2))
    ++ st.cursors.map (fun p => ServerMsg.userCursor p.1 p.2)
    ++ st.userColors.map (fun p => ServerMsg.userColor p.1 p.2)
  (ServerMsg.identity id :: ServerMsg.authenticatedEmail cfEmail :: messages,
   st.operations.length)

/-- Translation of `Rustpad::send_history`: the tail of the history from
`start`, sent only when non-empty, together with the new local revision. -/
def State.sendHistory (st : State) (start : Nat) : List ServerMsg × Nat :=
  let operations := st.operations.drop start
  if operations.length > 0 then
    ([ServerMsg.history start operations], start + operations.length)
  else ([], start)

/-- One external stimulus a session can receive: an inbound client message on
some connection, a disconnection, the color bulk-load, or `kill`. -/
inductive SessionOp where
  | message (id : Nat) (msg : ClientMsg) (cfEmail : Option String)
  | disconnect (id : Nat)
  | loadColors (colors : List (String × Nat))
  | kill
deriving DecidableEq

/-- The session's state transition for one stimulus.  A failing `apply_edit`
leaves the state unchanged (the code bails before mutating). -/
def State.stepOp (st : State) : SessionOp → State
  | .message id msg cfEmail =>
      match st.handleMessage id msg cfEmail with
      | .ok st1 => st1
      | .error _ => st
  | .disconnect id => (st.disconnect id).1
  | .loadColors colors =>
      { st with userColors := colors.foldl (fun m p => insertAssoc p.1 p.2 m) st.userColors }
  | .kill => st.kill

/-- The states a session can reach: a fresh empty session, a session seeded by
`from_document`, and anything obtainable from those through the public
operations. -/
inductive Reachable : State → Prop
  | empty : Reachable emptyState
  | fromDoc (doc : PersistedDocument) : Reachable (fromDocument doc)
  | step (st : State) (op : SessionOp) : Reachable st → Reachable (st.stepOp op)

/-- One event the connection-handler loop can wake up on. -/
inductive LoopEvent where
  | notified
  | broadcast (msg : ServerMsg)
  | inbound (msg : ClientMsg)
  | closed
deriving DecidableEq

/-- Outcome of one iteration of the connection-handler loop: either the loop
terminates, or it continues with a new state, local revision and sent frames. -/
inductive LoopResult where
  | exit
  | next (st : State) (localRev : Nat) (sent : List ServerMsg)
deriving DecidableEq

/-- Translation of one iteration of the loop in `Rustpad::handle_connection`:
after arming the notifier the handler first checks the killed flag and breaks;
otherwise it publishes any missed history and reacts to the first event. -/
def connectionStep (st : State) (id : Nat) (localRev : Nat)
    (cfEmail : Option String) (event : LoopEvent) : LoopResult :=
  if st.killed then .exit
  else
    let hist := st.sendHistory localRev
    match event with
    | .notified => .next st hist.2 hist.1
    | .broadcast m => .next st hist.2 (hist.1 ++ [m])
    | .inbound msg =>
        match st.handleMessage id msg cfEmail with
        | .ok st1 => .next st1 hist.2 hist.1
        | .error _ => .exit
    | .closed => .exit

/-- Translation of one tick of `persister` (lib.rs lines 317-333): if the
revision advanced beyond the last persisted one, attempt the store; the
recorded revision is updated only when the store succeeds.  The first
component says whether the store was attempted, the second is the recorded
revision after the tick. -/
def persisterTick (revision lastRevision : Nat) (storeOk : Bool) : Bool × Nat :=
  if revision > lastRevision then
    (true, if storeOk then revision else lastRevision)
  else (false, lastRevision)

/-- The fold of `apply` over the history starting from the empty string
(spec invariant `text == fold(apply, "", operations)`). -/
def foldApply (operations : List UserOperation) : Option String :=
  operations.foldlM (fun s u => u.operation.apply s) ""

/-- Decidable check that every stored cursor and selection offset is within
the current text. -/
def cursorsInRange (st : State) : Bool :=
  st.cursors.all fun p =>
    p.2.cursors.all (fun i => i ≤ st.text.length) &&
    p.2.selections.all (fun q => q.1 ≤ st.text.length && q.2 ≤ st.text.length)

/-! ### Lemmas about the OT primitive -/

theorem applyOps_lengths :
    ∀ (ops : List PrimOp) (cs out : List Char), applyOps ops cs = some out →
      cs.length = opsBaseLen ops ∧ out.length = opsTargetLen ops := by
  intro ops
  induction ops with
  | nil =>
    intro cs out h
    cases cs with
    | nil =>
      simp only [applyOps, Option.some.injEq] at h
      simp [← h, opsBaseLen, opsTargetLen]
    | cons c cs => simp [applyOps] at h
  | cons op rest ih =>
    intro cs out h
    cases op with
    | retain n =>
      simp only [applyOps] at h
      split at h
      · rw [Option.map_eq_some'] at h
        obtain ⟨t, ht, rfl⟩ := h
        have := ih _ _ ht
        simp only [opsBaseLen, opsTargetLen, PrimOp.baseLen, PrimOp.targetLen,
          List.length_append, List.length_take, List.length_drop] at *
        omega
      · cases h
    | delete n =>
      simp only [applyOps] at h
      split at h
      · have := ih _ _ h
        simp only [opsBaseLen, opsTargetLen, PrimOp.baseLen, PrimOp.targetLen,
          List.length_drop] at *
        omega
      · cases h
    | insert s =>
      simp only [applyOps] at h
      rw [Option.map_eq_some'] at h
      obtain ⟨t, ht, rfl⟩ := h
      have := ih _ _ ht
      simp only [opsBaseLen, opsTargetLen, PrimOp.baseLen, PrimOp.targetLen,
        List.length_append, String.length] at *
      omega

theorem apply_some_lengths (o : OperationSeq) (s t : String)
    (h : o.apply s = some t) : s.length = o.baseLen ∧ t.length = o.targetLen := by
  unfold OperationSeq.apply at h
  split at h
  · rw [Option.map_eq_some'] at h
    obtain ⟨out, hout, rfl⟩ := h
    have := applyOps_lengths o.ops s.data out hout
    exact ⟨by assumption, this.2⟩
  · cases h

theorem transformIndexOps_le :
    ∀ (ops : List PrimOp) (i : Nat), i ≤ opsBaseLen ops →
      transformIndexOps ops i ≤ opsTargetLen ops := by
  intro ops
  induction ops with
  | nil => intro i hi; simpa [transformIndexOps, opsTargetLen, opsBaseLen] using hi
  | cons op rest ih =>
    intro i hi
    cases op with
    | retain n =>
      simp only [transformIndexOps, opsBaseLen, opsTargetLen, PrimOp.baseLen,
        PrimOp.targetLen] at *
      split
      · omega
      · have := ih (i - n) (by omega)
        omega
    | delete n =>
      simp only [transformIndexOps, opsBaseLen, opsTargetLen, PrimOp.baseLen,
        PrimOp.targetLen] at *
      split
      · omega
      · have := ih (i - n) (by omega)
        omega
    | insert s =>
      simp only [transformIndexOps, opsBaseLen, opsTargetLen, PrimOp.baseLen,
        PrimOp.targetLen] at *
      have := ih i (by omega)
      omega

theorem transform_index_le (op : OperationSeq) (i : Nat) (h : i ≤ op.baseLen) :
    transform_index op i ≤ op.targetLen :=
  transformIndexOps_le op.ops i h

/-! ### Characterization of a successful edit -/

theorem applyEdit_ok_iff (st : State) (id rev : Nat) (o : OperationSeq)
    (email : Option String) (st' : State) :
    st.applyEdit id rev o email = Except.ok st' ↔
      rev ≤ st.operations.length ∧
      ∃ op newText,
        rebase o (st.operations.drop rev) = some op ∧
        op.targetLen ≤ maxTargetLen ∧
        op.apply st.text = some newText ∧
        st' = { st with
                cursors := st.cursors.map (fun p => (p.1, transformCursorData op p.2))
                operations := st.operations ++ [{ id := id, operation := op, email := email }]
                text := newText } := by
  constructor
  · intro h
    unfold State.applyEdit at h
    rcases Nat.lt_or_ge st.operations.length rev with hlt | hge
    · rw [if_pos hlt] at h
      simp at h
    · rw [if_neg (by omega)] at h
      split at h
      · simp at h
      · rename_i op hop
        split at h
        · simp at h
        · rename_i hcap
          split at h
          · simp at h
          · rename_i newText happ
            injection h with h
            exact ⟨by omega, op, newText, hop, by omega, happ, h.symm⟩
  · rintro ⟨h1, op, newText, hop, hcap, happ, rfl⟩
    unfold State.applyEdit
    rw [if_neg (by omega), hop]
    dsimp only
    rw [if_neg (by omega), happ]

theorem applyEdit_ok_dest (st st1 : State) (id rev : Nat) (o : OperationSeq)
    (email : Option String) (h : st.applyEdit id rev o email = Except.ok st1) :
    ∃ op newText,
      op.apply st.text = some newText ∧ op.targetLen ≤ maxTargetLen ∧
      st1 = { st with
              cursors := st.cursors.map (fun p => (p.1, transformCursorData op p.2))
              operations := st.operations ++ [{ id := id, operation := op, email := email }]
              text := newText } := by
  obtain ⟨-, op, newText, -, hcap, happ, hst⟩ := (applyEdit_ok_iff st id rev o email st1).mp h
  exact ⟨op, newText, happ, hcap, hst⟩

/-! ### The folded-apply invariant -/

theorem foldlM_apply_append (l : List UserOperation) (u : UserOperation) (s : String) :
    (l ++ [u]).foldlM (fun (t : String) (v : UserOperation) => v.operation.apply t) s =
      (l.foldlM (fun (t : String) (v : UserOperation) => v.operation.apply t) s).bind
        (fun t => u.operation.apply t) := by
  induction l generalizing s with
  | nil =>
    cases hu : u.operation.apply s <;> simp [List.foldlM, hu]
  | cons v l ih =>
    cases hv : v.operation.apply s <;> simp [List.foldlM, hv, ih]

theorem foldApply_append (l : List UserOperation) (u : UserOperation) :
    foldApply (l ++ [u]) = (foldApply l).bind (fun t => u.operation.apply t) :=
  foldlM_apply_append l u ""

theorem insert_apply_emptyText (s : String) :
    (OperationSeq.empty.insert s).apply "" = some s := by
  unfold OperationSeq.empty OperationSeq.insert OperationSeq.apply
  simp only [List.nil_append, OperationSeq.baseLen, opsBaseLen, PrimOp.baseLen, applyOps,
    Option.map_some', Option.map_none']
  rw [if_pos (show ("" : String).length = 0 + 0 from rfl), List.append_nil]
  rfl

/-! ### Preservation lemmas for the session transition -/

theorem handleMessage_ok_killed (st st1 : State) (id : Nat) (msg : ClientMsg)
    (cfEmail : Option String) (h : st.handleMessage id msg cfEmail = Except.ok st1) :
    st1.killed = st.killed := by
  cases msg with
  | edit rev o =>
    obtain ⟨op, newText, -, -, rfl⟩ := applyEdit_ok_dest st st1 id rev o cfEmail h
    rfl
  | setLanguage l => injection h with h; rw [← h]
  | clientInfo info => injection h with h; rw [← h]
  | cursorData data => injection h with h; rw [← h]
  | setColor hue =>
    cases cfEmail with
    | some email => injection h with h; rw [← h]
    | none => injection h with h; rw [← h]

theorem stepOp_killed (st : State) (op : SessionOp) (h : st.killed = true) :
    (st.stepOp op).killed = true := by
  cases op with
  | message id msg cfEmail =>
    cases heq : st.handleMessage id msg cfEmail with
    | ok st1 =>
      simp only [State.stepOp, heq]
      rw [handleMessage_ok_killed st st1 id msg cfEmail heq]
      exact h
    | error e =>
      simp only [State.stepOp, heq]
      exact h
  | disconnect id => exact h
  | loadColors colors => exact h
  | kill => rfl

theorem handleMessage_ok_textInv (st st1 : State) (id : Nat) (msg : ClientMsg)
    (cfEmail : Option String) (h : st.handleMessage id msg cfEmail = Except.ok st1)
    (hinv : foldApply st.operations = some st.text) :
    foldApply st1.operations = some st1.text := by
  cases msg with
  | edit rev o =>
    obtain ⟨op, newText, happ, -, rfl⟩ := applyEdit_ok_dest st st1 id rev o cfEmail h
    show foldApply (st.operations ++ [_]) = some newText
    rw [foldApply_append, hinv]
    exact happ
  | setLanguage l => injection h with h; rw [← h]; exact hinv
  | clientInfo info => injection h with h; rw [← h]; exact hinv
  | cursorData data => injection h with h; rw [← h]; exact hinv
  | setColor hue =>
    cases cfEmail with
    | some email => injection h with h; rw [← h]; exact hinv
    | none => injection h with h; rw [← h]; exact hinv

theorem stepOp_textInv (st : State) (op : SessionOp)
    (hinv : foldApply st.operations = some st.text) :
    foldApply (st.stepOp op).operations = some (st.stepOp op).text := by
  cases op with
  | message id msg cfEmail =>
    cases heq : st.handleMessage id msg cfEmail with
    | ok st1 =>
      simp only [State.stepOp, heq]
      exact handleMessage_ok_textInv st st1 id msg cfEmail heq hinv
    | error e =>
      simp only [State.stepOp, heq]
      exact hinv
  | disconnect id => exact hinv
  | loadColors colors => exact hinv
  | kill => exact hinv

theorem handleMessage_ok_opsSub (st st1 : State) (id : Nat) (msg : ClientMsg)
    (cfEmail : Option String) (h : st.handleMessage id msg cfEmail = Except.ok st1) :
    ∀ u ∈ st1.operations, u ∈ st.operations ∨ u.operation.targetLen ≤ maxTargetLen := by
  cases msg with
  | edit rev o =>
    obtain ⟨op, newText, -, hcap, rfl⟩ := applyEdit_ok_dest st st1 id rev o cfEmail h
    intro u hu
    rcases List.mem_append.mp hu with hl | hr
    · exact Or.inl hl
    · rcases List.mem_singleton.mp hr with rfl
      exact Or.inr hcap
  | setLanguage l => injection h with h; rw [← h]; exact fun u hu => Or.inl hu
  | clientInfo info => injection h with h; rw [← h]; exact fun u hu => Or.inl hu
  | cursorData data => injection h with h; rw [← h]; exact fun u hu => Or.inl hu
  | setColor hue =>
    cases cfEmail with
    | some email => injection h with h; rw [← h]; exact fun u hu => Or.inl hu
    | none => injection h with h; rw [← h]; exact fun u hu => Or.inl hu

theorem stepOp_opsSub (st : State) (op : SessionOp) :
    ∀ u ∈ (st.stepOp op).operations, u ∈ st.operations ∨ u.operation.targetLen ≤ maxTargetLen := by
  cases op with
  | message id msg cfEmail =>
    cases heq : st.handleMessage id msg cfEmail with
    | ok st1 =>
      simp only [State.stepOp, heq]
      exact handleMessage_ok_opsSub st st1 id msg cfEmail heq
    | error e =>
      simp only [State.stepOp, heq]
      exact fun u hu => Or.inl hu
  | disconnect id => exact fun u hu => Or.inl hu
  | loadColors colors => exact fun u hu => Or.inl hu
  | kill => exact fun u hu => Or.inl hu

theorem stepOp_revision_mono (st : State) (op : SessionOp) :
    st.revision ≤ (st.stepOp op).revision := by
  cases op with
  | message id msg cfEmail =>
    cases heq : st.handleMessage id msg cfEmail with
    | ok st1 =>
      simp only [State.stepOp, heq]
      cases msg with
      | edit rev o =>
        obtain ⟨op, newText, -, -, rfl⟩ := applyEdit_ok_dest st st1 id rev o cfEmail heq
        simp [State.revision]
      | setLanguage l => injection heq with heq; exact le_of_eq (by rw [← heq]; try simp [State.revision])
      | clientInfo info => injection heq with heq; exact le_of_eq (by rw [← heq]; try simp [State.revision])
      | cursorData data => injection heq with heq; exact le_of_eq (by rw [← heq]; try simp [State.revision])
      | setColor hue =>
        cases cfEmail with
        | some email => injection heq with heq; exact le_of_eq (by rw [← heq]; try simp [State.revision])
        | none => injection heq with heq; exact le_of_eq (by rw [← heq]; try simp [State.revision])
    | error e =>
      simp only [State.stepOp, heq]
      exact Nat.le_refl _
  | disconnect id => exact Nat.le_refl _
  | loadColors colors => exact Nat.le_refl _
  | kill => exact Nat.le_refl _

/-! ### Concrete states used by witnesses and counterexamples -/

/-- A session holding the single-character-history document "ab". -/
def c1Before : State :=
  { emptyState with
    operations := [{ id := 5, operation := ⟨[PrimOp.insert "ab"]⟩, email := none }]
    text := "ab" }

/-- The operation a client based on revision 0 sends: insert "X" at the front. -/
def c1Op : OperationSeq := ⟨[PrimOp.insert "X"]⟩

/-- The rebase of `c1Op` against the concurrent insert of "ab". -/
def c1Rebased : OperationSeq := ⟨[PrimOp.insert "X", PrimOp.retain 2]⟩

/-- The session after `c1Op` commits on `c1Before`. -/
def c1After : State :=
  { emptyState with
    operations := [{ id := 5, operation := ⟨[PrimOp.insert "ab"]⟩, email := none },
                   { id := 7, operation := c1Rebased, email := none }]
    text := "Xab" }

/-- A rebased operation whose target length just exceeds the 256 KiB cap. -/
def bigRetain : OperationSeq := ⟨[PrimOp.retain 262145]⟩

/-- A session on "hello" in which a client stored an out-of-range cursor. -/
def c5Before : State :=
  { emptyState with
    operations := [{ id := u64Max, operation := ⟨[PrimOp.insert "hello"]⟩, email := none }]
    text := "hello"
    cursors := [(0, { cursors := [1000], selections := [] })] }

/-- The session after a five-character retain commits on `c5Before`. -/
def c5After : State :=
  { c5Before with
    operations := c5Before.operations ++
      [{ id := 1, operation := ⟨[PrimOp.retain 5]⟩, email := none }] }

/-- An empty session whose killed flag has been set. -/
def killedState : State := { emptyState with killed := true }

/-! ### The claims -/

/-- C1: a successful `Edit{revision, operation}` against a history of length n
with revision ≤ n commits exactly the operation obtained by transforming the
client's operation left-to-right against each concurrent history entry, taking
the first transform component each time (`rebase`); exactly one
`UserOperation{id, op, email}` is appended, the text becomes the rebased
operation applied to the old text, and `revision()` grows by exactly one. -/
theorem C1_edit_commit (st st' : State) (id rev : Nat) (o op : OperationSeq)
    (email : Option String)
    (hr : rebase o (st.operations.drop rev) = some op)
    (h : st.applyEdit id rev o email = Except.ok st') :
    rev ≤ st.operations.length ∧
    st'.operations = st.operations ++ [{ id := id, operation := op, email := email }] ∧
    op.apply st.text = some st'.text ∧
    st'.revision = st.revision + 1 := by
  obtain ⟨h1, op2, newText, hr2, hcap, happ, rfl⟩ :=
    (applyEdit_ok_iff st id rev o email st').mp h
  rw [hr] at hr2
  injection hr2 with hr2
  subst hr2
  exact ⟨h1, rfl, happ, by simp [State.revision]⟩

/-- Witness for C1: the concrete commit of insert "X" against the concurrent
insert of "ab". -/
theorem C1_edit_commit_witness :
    0 ≤ c1Before.operations.length ∧
    c1After.operations = c1Before.operations ++
      [{ id := 7, operation := c1Rebased, email := none }] ∧
    c1Rebased.apply c1Before.text = some c1After.text ∧
    c1After.revision = c1Before.revision + 1 :=
  C1_edit_commit c1Before c1After 7 0 c1Op c1Rebased none rfl rfl

/-- C2: every reachable session state satisfies the invariant
`text == fold(apply, "", operations)`: it holds for the empty session and for
`from_document`, and is preserved by every session operation, in particular by
every successful edit commit. -/
theorem C2_text_invariant (st : State) (h : Reachable st) :
    foldApply st.operations = some st.text := by
  induction h with
  | empty => rfl
  | fromDoc doc =>
    have hins := insert_apply_emptyText doc.text
    simp [foldApply, List.foldlM, fromDocument, hins]
  | step st op hst ih => exact stepOp_textInv st op ih

/-- Witness for C2: the invariant at the session loaded from document "hi". -/
theorem C2_text_invariant_witness :
    foldApply (fromDocument ⟨"hi", none⟩).operations =
      some (fromDocument ⟨"hi", none⟩).text :=
  C2_text_invariant (fromDocument ⟨"hi", none⟩) (Reachable.fromDoc ⟨"hi", none⟩)

/-- C3: an edit whose claimed revision strictly exceeds the history length
fails with `InvalidRevision` and leaves the session state unchanged. -/
theorem C3_invalid_revision (st : State) (id rev : Nat) (o : OperationSeq)
    (email : Option String) (h : st.operations.length < rev) :
    st.applyEdit id rev o email = Except.error EditError.invalidRevision ∧
    st.stepOp (SessionOp.message id (ClientMsg.edit rev o) email) = st := by
  have herr : st.applyEdit id rev o email = Except.error EditError.invalidRevision := by
    unfold State.applyEdit
    rw [if_pos h]
  exact ⟨herr, by simp only [State.stepOp, State.handleMessage, herr]⟩

/-- Witness for C3: revision 5 against an empty history. -/
theorem C3_invalid_revision_witness :
    emptyState.applyEdit 0 5 OperationSeq.empty none =
      Except.error EditError.invalidRevision ∧
    emptyState.stepOp (SessionOp.message 0 (ClientMsg.edit 5 OperationSeq.empty) none) =
      emptyState :=
  C3_invalid_revision emptyState 0 5 OperationSeq.empty none (by decide)

/-- C4: an edit whose rebased operation has target length above 262144 fails
with `DocumentTooLarge` and leaves the state unchanged; consequently in every
reachable state each history entry other than the synthetic seed (id
`u64::MAX`) has target length at most 262144. -/
theorem C4_size_cap :
    (∀ (st : State) (id rev : Nat) (o op : OperationSeq) (email : Option String),
      rev ≤ st.operations.length →
      rebase o (st.operations.drop rev) = some op →
      maxTargetLen < op.targetLen →
      st.applyEdit id rev o email = Except.error EditError.documentTooLarge ∧
      st.stepOp (SessionOp.message id (ClientMsg.edit rev o) email) = st) ∧
    (∀ st : State, Reachable st →
      ∀ u ∈ st.operations, u.id = u64Max ∨ u.operation.targetLen ≤ maxTargetLen) := by
  constructor
  · intro st id rev o op email h1 hr hcap
    have herr : st.applyEdit id rev o email = Except.error EditError.documentTooLarge := by
      unfold State.applyEdit
      rw [if_neg (by omega), hr]
      dsimp only
      rw [if_pos (by omega)]
    exact ⟨herr, by simp only [State.stepOp, State.handleMessage, herr]⟩
  · intro st h
    induction h with
    | empty => intro u hu; cases hu
    | fromDoc doc =>
      intro u hu
      rcases List.mem_singleton.mp hu with rfl
      exact Or.inl rfl
    | step st op hst ih =>
      intro u hu
      rcases stepOp_opsSub st op u hu with hmem | hcap
      · exact ih u hmem
      · exact Or.inr hcap

/-- Witness for C4: an oversized retain is rejected on the empty session, and
the seed entry of the loaded document "hi" satisfies the disjunction. -/
theorem C4_size_cap_witness :
    (emptyState.applyEdit 0 0 bigRetain none =
        Except.error EditError.documentTooLarge ∧
     emptyState.stepOp (SessionOp.message 0 (ClientMsg.edit 0 bigRetain) none) =
        emptyState) ∧
    (({ id := u64Max, operation := OperationSeq.empty.insert "hi",
        email := none } : UserOperation).id = u64Max ∨
     ({ id := u64Max, operation := OperationSeq.empty.insert "hi",
        email := none } : UserOperation).operation.targetLen ≤ maxTargetLen) :=
  ⟨C4_size_cap.1 emptyState 0 0 bigRetain bigRetain none (by decide) rfl (by decide),
   C4_size_cap.2 (fromDocument ⟨"hi", none⟩) (Reachable.fromDoc ⟨"hi", none⟩)
     { id := u64Max, operation := OperationSeq.empty.insert "hi", email := none }
     (by decide)⟩

/-- Counterexample to C5: cursor positions are trusted as sent by clients, so
a stored out-of-range cursor (offset 1000 in the 5-character document "hello")
is still out of range after an edit commits. -/
theorem C5_counterexample :
    c5Before.applyEdit 1 1 ⟨[PrimOp.retain 5]⟩ none = Except.ok c5After ∧
    c5After.text.length = 5 ∧
    c5After.cursors = [(0, { cursors := [1000], selections := [] })] ∧
    cursorsInRange c5After = false :=
  ⟨rfl, rfl, rfl, rfl⟩

/-- C5 (amended): at every commit, every stored cursor offset and both
endpoints of every stored selection, for every connection, are replaced by
`transform_index` of the committed operation applied to the old offset —
unconditionally; the old text's length is the committed operation's base
length, the new text's length its target length, and `transform_index` maps
every offset within the old text to an offset within the new text, so each
stored offset that was in range stays in range. -/
theorem C5_cursor_transform (st st' : State) (id rev : Nat) (o op : OperationSeq)
    (email : Option String)
    (hr : rebase o (st.operations.drop rev) = some op)
    (h : st.applyEdit id rev o email = Except.ok st') :
    st'.cursors = st.cursors.map (fun p => (p.1, transformCursorData op p.2)) ∧
    st.text.length = op.baseLen ∧
    st'.text.length = op.targetLen ∧
    (∀ i ≤ st.text.length, transform_index op i ≤ st'.text.length) := by
  obtain ⟨h1, op2, newText, hr2, hcap, happ, rfl⟩ :=
    (applyEdit_ok_iff st id rev o email st').mp h
  rw [hr] at hr2
  injection hr2 with hr2
  subst hr2
  obtain ⟨hbase, htarget⟩ := apply_some_lengths op st.text newText happ
  refine ⟨rfl, hbase, htarget, ?_⟩
  intro i hi
  show transform_index op i ≤ newText.length
  have := transform_index_le op i (by omega)
  omega

/-- Witness for C5 (amended): the retain-5 commit on the session whose stored
cursor is the out-of-range 1000: the cursor is still replaced through
`transform_index`, and the in-range boundary offset 5 stays in range. -/
theorem C5_cursor_transform_witness :
    c5After.cursors = c5Before.cursors.map
      (fun p => (p.1, transformCursorData ⟨[PrimOp.retain 5]⟩ p.2)) ∧
    transform_index ⟨[PrimOp.retain 5]⟩ 5 ≤ c5After.text.length :=
  ⟨(C5_cursor_transform c5Before c5After 1 1 ⟨[PrimOp.retain 5]⟩ ⟨[PrimOp.retain 5]⟩
      none rfl rfl).1,
   (C5_cursor_transform c5Before c5After 1 1 ⟨[PrimOp.retain 5]⟩ ⟨[PrimOp.retain 5]⟩
      none rfl rfl).2.2.2 5 (by decide)⟩

/-- Counterexample to C6: `apply_edit` does not consult the killed flag, so an
edit dispatched to an already-killed session still succeeds rather than fail. -/
theorem C6_counterexample :
    killedState.killed = true ∧
    killedState.applyEdit 0 0 (OperationSeq.empty.insert "a") none =
      Except.ok { killedState with
                  operations := [{ id := 0, operation := OperationSeq.empty.insert "a",
                                   email := none }]
                  text := "a" } :=
  ⟨rfl, rfl⟩

/-- C6 (amended): `kill()` sets the killed flag, and every connection-handler
loop iteration that starts on a killed session exits immediately — before
dispatching any event, so no further client message reaches the session
through it; `apply_edit` itself does not check the flag. -/
theorem C6_kill (st : State) (id localRev : Nat) (cfEmail : Option String)
    (event : LoopEvent) (h : st.killed = true) :
    st.kill.killed = true ∧
    connectionStep st id localRev cfEmail event = LoopResult.exit := by
  refine ⟨rfl, ?_⟩
  unfold connectionStep
  rw [if_pos h]

/-- Witness for C6 (amended): a killed session's handler exits even when an
edit arrives. -/
theorem C6_kill_witness :
    killedState.kill.killed = true ∧
    connectionStep killedState 0 0 none
      (LoopEvent.inbound (ClientMsg.edit 0 OperationSeq.empty)) = LoopResult.exit :=
  C6_kill killedState 0 0 none
    (LoopEvent.inbound (ClientMsg.edit 0 OperationSeq.empty)) rfl

/-- C7: a session seeded from a persisted document has exactly one history
entry, the synthetic `UserOperation` with id `u64::MAX`, whose operation is a
single insert of the document text and whose email is absent; its text and
language come from the document, `revision()` is 1, and the text invariant
holds. -/
theorem C7_from_document (doc : PersistedDocument) :
    (fromDocument doc).operations =
      [{ id := u64Max, operation := OperationSeq.empty.insert doc.text, email := none }] ∧
    (fromDocument doc).text = doc.text ∧
    (fromDocument doc).language = doc.language ∧
    (fromDocument doc).revision = 1 ∧
    foldApply (fromDocument doc).operations = some doc.text := by
  refine ⟨rfl, rfl, rfl, rfl, ?_⟩
  have hins := insert_apply_emptyText doc.text
  simp [foldApply, List.foldlM, fromDocument, hins]

/-- C8: the initial dump is `Identity`, `AuthenticatedEmail`, then the full
history from 0 iff the history is non-empty, the language iff set, one
`UserInfo` per user, one `UserCursor` per cursor and one `UserColor` per color
entry, in this order and all before live multiplexing (the handler's starting
revision is the dumped history length); a disconnecting client is removed from
`users` and `cursors` and exactly one `UserInfo{id, None}` is broadcast. -/
theorem C8_initial_dump (st : State) (id : Nat) (cfEmail : Option String) :
    (st.sendInitial id cfEmail).1 =
      [ServerMsg.identity id, ServerMsg.authenticatedEmail cfEmail]
      ++ (if st.operations = [] then [] else [ServerMsg.history 0 st.operations])
      ++ (st.language.map ServerMsg.language).toList
      ++ st.users.map (fun p => ServerMsg.userInfo p.1 (some p.2))
      ++ st.cursors.map (fun p => ServerMsg.userCursor p.1 p.2)
      ++ st.userColors.map (fun p => ServerMsg.userColor p.1 p.2) ∧
    (st.sendInitial id cfEmail).2 = st.revision ∧
    (st.disconnect id).2 = [ServerMsg.userInfo id none] ∧
    (st.disconnect id).1.users = st.users.filter (fun p => p.1 ≠ id) ∧
    (st.disconnect id).1.cursors = st.cursors.filter (fun p => p.1 ≠ id) ∧
    (st.disconnect id).1.operations = st.operations ∧
    (st.disconnect id).1.text = st.text := by
  refine ⟨?_, rfl, rfl, rfl, rfl, rfl, rfl⟩
  unfold State.sendInitial
  cases hops : st.operations <;> cases hl : st.language <;>
    simp [List.isEmpty, Option.toList]

/-- C9: a persister tick stores the snapshot iff the session revision differs
from the revision recorded at the last successful persist, and the recorded
revision is updated only when the store succeeds, so after a store error the
same revision is retried on the next tick.  Session revisions never decrease,
which justifies the hypothesis that the recorded revision is at most the
current one. -/
theorem C9_persister (revision lastRevision : Nat) (storeOk : Bool)
    (h : lastRevision ≤ revision) :
    ((persisterTick revision lastRevision storeOk).1 = true ↔ revision ≠ lastRevision) ∧
    (persisterTick revision lastRevision storeOk).2 =
      (if (persisterTick revision lastRevision storeOk).1 = true ∧ storeOk = true
       then revision else lastRevision) ∧
    (∀ (st : State) (op : SessionOp), st.revision ≤ (st.stepOp op).revision) := by
  refine ⟨?_, ?_, fun st op => stepOp_revision_mono st op⟩
  · unfold persisterTick
    rcases Nat.lt_or_ge lastRevision revision with hlt | hge
    · rw [if_pos hlt]; simp; omega
    · rw [if_neg (by omega)]; simp; omega
  · unfold persisterTick
    rcases Nat.lt_or_ge lastRevision revision with hlt | hge
    · rw [if_pos hlt]; cases storeOk <;> simp
    · rw [if_neg (by omega)]; simp

/-- Witness for C9: revision 2 against recorded revision 1 with a failing
store: the tick writes, and the recorded revision stays 1. -/
theorem C9_persister_witness :
    ((persisterTick 2 1 false).1 = true ↔ (2 : Nat) ≠ 1) ∧
    (persisterTick 2 1 false).2 =
      (if (persisterTick 2 1 false).1 = true ∧ false = true then 2 else 1) ∧
    emptyState.revision ≤ (emptyState.stepOp SessionOp.kill).revision :=
  ⟨(C9_persister 2 1 false (by decide)).1,
   (C9_persister 2 1 false (by decide)).2.1,
   (C9_persister 2 1 false (by decide)).2.2 emptyState SessionOp.kill⟩

/-- C10: the killed flag is monotone: no session operation clears it, so once
`killed()` has returned true it returns true after any further sequence of
operations. -/
theorem C10_killed_monotone (st : State) (ops : List SessionOp)
    (h : st.killed = true) :
    (ops.foldl State.stepOp st).killed = true := by
  induction ops generalizing st with
  | nil => exact h
  | cons op ops ih => exact ih (st.stepOp op) (stepOp_killed st op h)

/-- Witness for C10: the killed flag survives a language change and a
disconnection. -/
theorem C10_killed_monotone_witness :
    ([SessionOp.message 0 (ClientMsg.setLanguage "rust") none,
      SessionOp.disconnect 0].foldl State.stepOp killedState).killed = true :=
  C10_killed_monotone killedState
    [SessionOp.message 0 (ClientMsg.setLanguage "rust") none,
     SessionOp.disconnect 0] rfl

end RustpadSpec

